import Mathlib

/-!
Shallow embedding of the bayes-detect nested-sampling core
(src/Scripts/nest.py and src/Scripts/metropolis.py) and proofs about it.

Modelling conventions:
* Python floats are modelled as real numbers (ℝ).
* The log-evidence accumulator is modelled in the extended reals `EReal`.
  The code initialises it to the sentinel `-1e300`; in IEEE float64
  arithmetic `exp(-1e300)` is exactly `0.0`, so under `np.logaddexp` the
  sentinel behaves exactly like `-∞`.  We therefore model the sentinel as
  `⊥ : EReal` and `np.logaddexp` as `fun x y => ENNReal.log (EReal.exp x + EReal.exp y)`.
* The pseudo-random stream `np.random.uniform(0,1)` is modelled as a
  function `rand : ℕ → ℝ` together with an index that advances by one per
  draw, threaded through all computations.
* Python `while` loops whose exit depends on random draws are modelled
  with an explicit fuel parameter and an `Option` result; `none` means the
  loop did not exit within the given fuel.
* The external modules `sources.py` and `clust_ellip.py` are not part of
  the sources: the prior-bound accessors, the likelihood function and the
  clustered-ellipsoidal strategy are taken as parameters, following the
  spec's description of them as external collaborators.
-/

noncomputable section

namespace BayesDetect

/-- Modelled from the spec: the `Source` record from the external module
`sources.py` — a parameter record {X, Y, A, R} plus derived fields
{logL, logWt}; fresh records have numeric defaults. -/
structure Source where
  X : ℝ
  Y : ℝ
  A : ℝ
  R : ℝ
  logL : ℝ
  logWt : ℝ

instance : Inhabited Source := ⟨⟨0, 0, 0, 0, 0, 0⟩⟩

/-- Modelled from the spec: the four prior-bound accessors
`getPrior_X`, `getPrior_Y`, `getPrior_A`, `getPrior_R` from the external
module `sources.py`, packaged as one record of `(lower, upper)` pairs. -/
structure Bounds where
  x_l : ℝ
  x_u : ℝ
  y_l : ℝ
  y_u : ℝ
  a_l : ℝ
  a_u : ℝ
  r_l : ℝ
  r_u : ℝ

/-- A point has all four coordinates within the prior bounds
(the code rejects a candidate when a coordinate is strictly outside,
so the invariant is inclusive). -/
def inBounds (B : Bounds) (p : Source) : Prop :=
  B.x_l ≤ p.X ∧ p.X ≤ B.x_u ∧ B.y_l ≤ p.Y ∧ p.Y ≤ B.y_u ∧
  B.a_l ≤ p.A ∧ p.A ≤ B.a_u ∧ B.r_l ≤ p.R ∧ p.R ≤ B.r_u

/-- State of the 20-step Metropolis chain of `Metropolis_sampler.sample`
(metropolis.py lines 44-106): current chain point `metro`, scalar step
size `step`, cumulative accept/reject counts `hit`/`miss`, the
likelihood-call counter `number`, a ghost counter `evals` of actual
likelihood evaluations, and the position `idx` in the random stream. -/
structure MetroState where
  metro : Source
  step : ℝ
  hit : ℕ
  miss : ℕ
  number : ℕ
  evals : ℕ
  idx : ℕ

/-- Per-dimension step sizes computed from the scalar step
(metropolis.py lines 60-65 and 95-100):
`stepnormalize = step/x_u`, `stepX = step`, `stepY = stepnormalize*(y_u-y_l)`,
`stepA = stepnormalize*(a_u-a_l)`, `stepR = stepnormalize*(r_u-r_l)`. -/
def stepSizes (B : Bounds) (step : ℝ) : ℝ × ℝ × ℝ × ℝ :=
  (step, (step / B.x_u) * (B.y_u - B.y_l),
   ((step / B.x_u) * (B.a_u - B.a_l), (step / B.x_u) * (B.r_u - B.r_l)))

/-- Candidate generation, the inner `while bord==1` loop of
metropolis.py lines 71-81: draw one uniform offset per coordinate and
regenerate unconditionally until all four coordinates are inside the
prior bounds.  Four random draws are consumed per attempt.  The `logL`
and `logWt` fields of the returned candidate are placeholders: `logL` is
assigned by the caller right after generation and `logWt` is the fresh
`Source()` default. -/
def genCandidate (B : Bounds) (metro : Source) (sX sY sA sR : ℝ) (rand : ℕ → ℝ) :
    ℕ → ℕ → Option (Source × ℕ)
  | _, 0 => none
  | idx, fuel + 1 =>
    let nX := metro.X + sX * (2 * rand idx - 1)
    let nY := metro.Y + sY * (2 * rand (idx + 1) - 1)
    let nA := metro.A + sA * (2 * rand (idx + 2) - 1)
    let nR := metro.R + sR * (2 * rand (idx + 3) - 1)
    if nX > B.x_u ∨ nX < B.x_l ∨ nY > B.y_u ∨ nY < B.y_l ∨
       nA > B.a_u ∨ nA < B.a_l ∨ nR > B.r_u ∨ nR < B.r_l then
      genCandidate B metro sX sY sA sR rand (idx + 4) fuel
    else
      some (⟨nX, nY, nA, nR, 0, 0⟩, idx + 4)

/-- One step of the Metropolis chain, the body of the `while(count<20)`
loop of metropolis.py lines 69-104: generate an in-bounds candidate,
evaluate its log-likelihood (one likelihood call, counter incremented),
accept iff `new.logL > LC`, update hit/miss, then adapt the scalar step:
multiply by `exp(1/hit)` if `hit > miss`, divide by `exp(1/miss)` if
`hit < miss`. -/
def metroStep (B : Bounds) (LL : ℝ → ℝ → ℝ → ℝ → ℝ) (LC : ℝ) (rand : ℕ → ℝ)
    (fuel : ℕ) (s : MetroState) : Option MetroState :=
  match genCandidate B s.metro (stepSizes B s.step).1 (stepSizes B s.step).2.1
      (stepSizes B s.step).2.2.1 (stepSizes B s.step).2.2.2 rand s.idx fuel with
  | none => none
  | some (cand, idx1) =>
    let newLogL := LL cand.X cand.Y cand.A cand.R
    let metro1 := if newLogL > LC then { cand with logL := newLogL } else s.metro
    let hit1 := if newLogL > LC then s.hit + 1 else s.hit
    let miss1 := if newLogL > LC then s.miss else s.miss + 1
    let step1 := if hit1 > miss1 then s.step * Real.exp (1 / (hit1 : ℝ)) else s.step
    let step2 := if hit1 < miss1 then step1 / Real.exp (1 / (miss1 : ℝ)) else step1
    some ⟨metro1, step2, hit1, miss1, s.number + 1, s.evals + 1, idx1⟩

/-- The `while(count<20)` loop of metropolis.py, run for `k` steps. -/
def sampleLoop (B : Bounds) (LL : ℝ → ℝ → ℝ → ℝ → ℝ) (LC : ℝ) (rand : ℕ → ℝ)
    (fuel : ℕ) : ℕ → MetroState → Option MetroState
  | 0, s => some s
  | k + 1, s =>
    match metroStep B LL LC rand fuel s with
    | none => none
    | some s1 => sampleLoop B LL LC rand fuel k s1

/-- The method `Metropolis_sampler.sample` of metropolis.py lines 44-106:
copy the seed into the chain state, increment the counter once on entry
(`self.number+=1`, line 50 — not a likelihood evaluation), run 20 chain
steps with initial scalar step 8.0, and return the final chain point,
the counter, and (in this model) the final random-stream position. -/
def Metropolis_sample (B : Bounds) (LL : ℝ → ℝ → ℝ → ℝ → ℝ) (source : Source)
    (LC : ℝ) (no : ℕ) (rand : ℕ → ℝ) (idx fuel : ℕ) : Option (Source × ℕ × ℕ) :=
  match sampleLoop B LL LC rand fuel 20 ⟨source, 8, 0, 0, no + 1, 0, idx⟩ with
  | none => none
  | some s => some (s.metro, s.number, s.idx)

end BayesDetect

namespace BayesDetect.Nest

/-!
The bottom of nest.py (lines 196-272) defines a second class also named
`Metropolis_sampler`, whose `sample` method is the one actually
dispatched by `fit`.  Its code is embedded here separately, line for
line from nest.py, so that the behavioural equivalence of the two
classes can be stated and proved (claim C9).
-/

/-- Per-dimension step sizes, nest.py lines 226-231 and 261-266. -/
def stepSizes (B : Bounds) (step : ℝ) : ℝ × ℝ × ℝ × ℝ :=
  (step, (step / B.x_u) * (B.y_u - B.y_l),
   ((step / B.x_u) * (B.a_u - B.a_l), (step / B.x_u) * (B.r_u - B.r_l)))

/-- Candidate generation, the inner `while bord==1` loop of nest.py
lines 237-247. -/
def genCandidate (B : Bounds) (metro : Source) (sX sY sA sR : ℝ) (rand : ℕ → ℝ) :
    ℕ → ℕ → Option (Source × ℕ)
  | _, 0 => none
  | idx, fuel + 1 =>
    let nX := metro.X + sX * (2 * rand idx - 1)
    let nY := metro.Y + sY * (2 * rand (idx + 1) - 1)
    let nA := metro.A + sA * (2 * rand (idx + 2) - 1)
    let nR := metro.R + sR * (2 * rand (idx + 3) - 1)
    if nX > B.x_u ∨ nX < B.x_l ∨ nY > B.y_u ∨ nY < B.y_l ∨
       nA > B.a_u ∨ nA < B.a_l ∨ nR > B.r_u ∨ nR < B.r_l then
      genCandidate B metro sX sY sA sR rand (idx + 4) fuel
    else
      some (⟨nX, nY, nA, nR, 0, 0⟩, idx + 4)

/-- One step of the chain, the body of the `while(count<20)` loop of
nest.py lines 235-270. -/
def metroStep (B : Bounds) (LL : ℝ → ℝ → ℝ → ℝ → ℝ) (LC : ℝ) (rand : ℕ → ℝ)
    (fuel : ℕ) (s : MetroState) : Option MetroState :=
  match genCandidate B s.metro (stepSizes B s.step).1 (stepSizes B s.step).2.1
      (stepSizes B s.step).2.2.1 (stepSizes B s.step).2.2.2 rand s.idx fuel with
  | none => none
  | some (cand, idx1) =>
    let newLogL := LL cand.X cand.Y cand.A cand.R
    let metro1 := if newLogL > LC then { cand with logL := newLogL } else s.metro
    let hit1 := if newLogL > LC then s.hit + 1 else s.hit
    let miss1 := if newLogL > LC then s.miss else s.miss + 1
    let step1 := if hit1 > miss1 then s.step * Real.exp (1 / (hit1 : ℝ)) else s.step
    let step2 := if hit1 < miss1 then step1 / Real.exp (1 / (miss1 : ℝ)) else step1
    some ⟨metro1, step2, hit1, miss1, s.number + 1, s.evals + 1, idx1⟩

/-- The `while(count<20)` loop of nest.py, run for `k` steps. -/
def sampleLoop (B : Bounds) (LL : ℝ → ℝ → ℝ → ℝ → ℝ) (LC : ℝ) (rand : ℕ → ℝ)
    (fuel : ℕ) : ℕ → MetroState → Option MetroState
  | 0, s => some s
  | k + 1, s =>
    match metroStep B LL LC rand fuel s with
    | none => none
    | some s1 => sampleLoop B LL LC rand fuel k s1

/-- The method `Metropolis_sampler.sample` of nest.py lines 210-272. -/
def Metropolis_sample (B : Bounds) (LL : ℝ → ℝ → ℝ → ℝ → ℝ) (source : Source)
    (LC : ℝ) (no : ℕ) (rand : ℕ → ℝ) (idx fuel : ℕ) : Option (Source × ℕ × ℕ) :=
  match sampleLoop B LL LC rand fuel 20 ⟨source, 8, 0, 0, no + 1, 0, idx⟩ with
  | none => none
  | some s => some (s.metro, s.number, s.idx)

end BayesDetect.Nest

namespace BayesDetect

/-- Index of the first minimum of a list of reals, as `np.argmin`
(nest.py line 100); 0 on the empty list. -/
def argmin : List ℝ → ℕ
  | [] => 0
  | [_] => 0
  | x :: y :: ys =>
    if (y :: ys).getD (argmin (y :: ys)) 0 < x then argmin (y :: ys) + 1 else 0

/-- Index of the first maximum of a list of reals, as `np.argmax`
(nest.py line 104); 0 on the empty list. -/
def argmax : List ℝ → ℕ
  | [] => 0
  | [_] => 0
  | x :: y :: ys =>
    if x < (y :: ys).getD (argmax (y :: ys)) 0 then argmax (y :: ys) + 1 else 0

/-- The survivor-selection rejection loop of nest.py lines 134-137:
draw `survivor = int(n * uniform(0,1)) % n` until it differs from the
worst point's index.  One random draw is consumed per attempt. -/
def pickSurvivor (n smallest : ℕ) (rand : ℕ → ℝ) : ℕ → ℕ → Option (ℕ × ℕ)
  | _, 0 => none
  | idx, fuel + 1 =>
    let survivor := (Int.toNat ⌊(n : ℝ) * rand idx⌋) % n
    if survivor ≠ smallest then some (survivor, idx + 1)
    else pickSurvivor n smallest rand (idx + 1) fuel

/-- The accumulation operation `np.logaddexp` (nest.py line 111) on the
extended reals: `logaddexp x y = log (exp x + exp y)`. -/
def logaddexp (x y : EReal) : EReal := ENNReal.log (EReal.exp x + EReal.exp y)

/-- Log-sum-exp of a list of reals, the reference value the evidence
accumulator is compared against: `lse l = log (∑ exp lᵢ)`, with
`lse [] = ⊥`. -/
def lse (l : List ℝ) : EReal :=
  ENNReal.log (l.map (fun (w : ℝ) => EReal.exp (w : EReal))).sum

/-- Run state of the nested-sampling main loop of `Nested_Sampler.fit`
(nest.py lines 86-168): active ensemble, the cached `LogL` list, the
evidence accumulator `logZ` (sentinel modelled as `⊥`), the prior-mass
width `logW`, the `Information` statistic, the posterior trace, the
likelihood-call counter and the random-stream position. -/
structure FitState where
  active : List Source
  LogL : List ℝ
  logZ : EReal
  logW : ℝ
  info : ℝ
  posterior : List Source
  nLike : ℕ
  idx : ℕ

/-- One iteration of the main loop of `fit`, nest.py lines 97-154, with
the `"metropolis"` strategy selected (the dispatch default): find the
worst point, assign its `logWt`, compute the (unused) stopping estimate,
accumulate evidence and information, append the worst point to the
posterior trace, pick a survivor seed distinct from the worst index,
evolve it with the Metropolis sampler, overwrite the worst slot with the
evolved point, and shrink the prior-mass width by `1/n`. -/
def fitIter (B : Bounds) (LL : ℝ → ℝ → ℝ → ℝ → ℝ) (n : ℕ) (rand : ℕ → ℝ)
    (fuel : ℕ) (s : FitState) : Option FitState :=
  let smallest := argmin s.LogL
  let worst := s.active.getD smallest default
  let wWt : ℝ := s.logW + worst.logL
  let worst1 : Source := { worst with logWt := wWt }
  let active1 := s.active.set smallest worst1
  let largest := argmax s.LogL
  let stop : EReal := (((s.active.getD largest default).logL + s.logW : ℝ) : EReal) - s.logZ
  let tempZ := logaddexp s.logZ ((wWt : ℝ) : EReal)
  let info1 : ℝ :=
    (EReal.exp (((wWt : ℝ) : EReal) - tempZ)).toReal * worst.logL +
      (EReal.exp (s.logZ - tempZ)).toReal * (s.info + s.logZ.toReal) - tempZ.toReal
  let posterior1 := s.posterior ++ [worst1]
  let LC := worst.logL
  match pickSurvivor n smallest rand s.idx fuel with
  | none => none
  | some (survivor, idx1) =>
    match Metropolis_sample B LL (active1.getD survivor default) LC s.nLike rand idx1 fuel with
    | none => none
    | some (updated, number, idx2) =>
      some { active := active1.set smallest updated,
             LogL := s.LogL.set smallest updated.logL,
             logZ := tempZ, logW := s.logW - 1 / (n : ℝ), info := info1,
             posterior := posterior1, nLike := number, idx := idx2 }

/-- The main loop of `fit`, run for `k` iterations. -/
def fitLoop (B : Bounds) (LL : ℝ → ℝ → ℝ → ℝ → ℝ) (n : ℕ) (rand : ℕ → ℝ)
    (fuel : ℕ) : ℕ → FitState → Option FitState
  | 0, s => some s
  | k + 1, s =>
    match fitIter B LL n rand fuel s with
    | none => none
    | some s1 => fitLoop B LL n rand fuel k s1

/-- Initial run state of `fit`, nest.py lines 81 and 89-92: sentinel
evidence, `log_width = log(1 - exp(-1/n))`, zero information, cached
`LogL` list, empty posterior trace, and the call counter starting at the
number of active samples (set in `__init__`). -/
def fitInit (active : List Source) (n : ℕ) : FitState :=
  { active := active, LogL := active.map (fun p => p.logL), logZ := ⊥,
    logW := Real.log (1 - Real.exp (-1 / (n : ℝ))), info := 0,
    posterior := [], nLike := n, idx := 0 }

/-- Result mapping returned by `fit`, nest.py lines 162-168. -/
structure FitResult where
  src : List Source
  samples : List Source
  logZ : EReal
  Information : ℝ
  likelihood_calculations : ℕ
  iterations : ℕ

/-- The method `Nested_Sampler.fit` of nest.py lines 86-168 with the
`"metropolis"` strategy: the loop `for iteration in range(1, maxIter)`
executes `maxIter - 1` iterations (truncated subtraction), and the
returned mapping reports `iterations = maxIter`. -/
def fit (B : Bounds) (LL : ℝ → ℝ → ℝ → ℝ → ℝ) (active : List Source)
    (n maxIter : ℕ) (rand : ℕ → ℝ) (fuel : ℕ) : Option FitResult :=
  match fitLoop B LL n rand fuel (maxIter - 1) (fitInit active n) with
  | none => none
  | some s =>
    some { src := s.active, samples := s.posterior, logZ := s.logZ,
           Information := s.info, likelihood_calculations := s.nLike,
           iterations := maxIter }

/-- The retry loop of `Nested_Sampler.clustered_sampling`, nest.py lines
186-191: invoke the clustered strategy, exit when the returned point's
`logL` exceeds the constraint, otherwise re-construct the strategy with
the updated call count and retry.  The external strategy is modelled as
a function `CS` of the attempt index and the call count passed at
construction. -/
def clusteredLoop (CS : ℕ → ℕ → Source × ℕ) (LC : ℝ) :
    ℕ → ℕ → ℕ → Option (Source × ℕ)
  | 0, _, _ => none
  | fuel + 1, attempt, no =>
    let r := CS attempt no
    if r.1.logL > LC then some r
    else clusteredLoop CS LC fuel (attempt + 1) r.2

/-- The method `Nested_Sampler.clustered_sampling` of nest.py lines
182-192. -/
def clustered_sampling (CS : ℕ → ℕ → Source × ℕ) (LC : ℝ) (no fuel : ℕ) :
    Option (Source × ℕ) :=
  clusteredLoop CS LC fuel 0 no


/-! ### A concrete scenario

Bounds as in the spec's test scenario (X ∈ [0,200], Y ∈ [0,200],
A ∈ [1,14], R ∈ [2,9]), a constant-zero log-likelihood, and the constant
random stream 1/2 (so every proposal offset is zero and the survivor
draw for an ensemble of two picks index 1). -/

def B0 : Bounds := ⟨0, 200, 0, 200, 1, 14, 2, 9⟩

def LL0 : ℝ → ℝ → ℝ → ℝ → ℝ := fun _ _ _ _ => 0

def rand0 : ℕ → ℝ := fun _ => 1 / 2

def src0 : Source := ⟨100, 100, 7, 5, -1, 0⟩

def src1 : Source := ⟨100, 100, 7, 5, 3, 0⟩

def mstate0 : MetroState := ⟨src1, 8, 0, 0, 3, 0, 0⟩

def mres0 : MetroState :=
  ⟨⟨100, 100, 7, 5, 0, 0⟩, 8 * Real.exp (1 / ((1 : ℕ) : ℝ)), 1, 0, 4, 1, 4⟩

def dummyMS : Source × ℕ × ℕ := (⟨0, 0, 0, 0, 0, 0⟩, 0, 0)

def dummyMSt : MetroState := ⟨⟨0, 0, 0, 0, 0, 0⟩, 0, 0, 0, 0, 0, 0⟩

def dummyFS : FitState := ⟨[], [], ⊥, 0, 0, [], 0, 0⟩

def dummyFR : FitResult := ⟨[], [], ⊥, 0, 0, 0⟩

def CS0 : ℕ → ℕ → Source × ℕ :=
  fun attempt no => (⟨0, 0, 0, 0, if attempt = 0 then -1 else 5, 0⟩, no + 3)

def cs0res : Source := ⟨0, 0, 0, 0, 5, 0⟩

end BayesDetect

namespace BayesDetect

/-! ### Basic lemmas about the Metropolis chain -/

lemma genCandidate_inBounds {B : Bounds} {m : Source} {sX sY sA sR : ℝ} {rand : ℕ → ℝ} :
    ∀ {fuel idx : ℕ} {c : Source} {i : ℕ},
      genCandidate B m sX sY sA sR rand idx fuel = some (c, i) → inBounds B c := by
  intro fuel
  induction fuel with
  | zero => intro idx c i h; simp [genCandidate] at h
  | succ fuel ih =>
    intro idx c i h
    rw [genCandidate] at h
    split at h
    · exact ih h
    · rename_i hcond
      push_neg at hcond
      obtain ⟨h1, h2, h3, h4, h5, h6, h7, h8⟩ := hcond
      injection h with h
      injection h with h h9
      subst h
      exact ⟨h2, h1, h4, h3, h6, h5, h8, h7⟩

lemma metroStep_spec {B : Bounds} {LL : ℝ → ℝ → ℝ → ℝ → ℝ} {LC : ℝ} {rand : ℕ → ℝ}
    {fuel : ℕ} {s s1 : MetroState} (h : metroStep B LL LC rand fuel s = some s1) :
    ∃ cand idx1,
      genCandidate B s.metro (stepSizes B s.step).1 (stepSizes B s.step).2.1
          (stepSizes B s.step).2.2.1 (stepSizes B s.step).2.2.2 rand s.idx fuel
        = some (cand, idx1) ∧
      s1.metro = (if LL cand.X cand.Y cand.A cand.R > LC then
          { cand with logL := LL cand.X cand.Y cand.A cand.R } else s.metro) ∧
      s1.hit = (if LL cand.X cand.Y cand.A cand.R > LC then s.hit + 1 else s.hit) ∧
      s1.miss = (if LL cand.X cand.Y cand.A cand.R > LC then s.miss else s.miss + 1) ∧
      s1.step = (if s1.hit < s1.miss then
          (if s1.hit > s1.miss then s.step * Real.exp (1 / (s1.hit : ℝ)) else s.step) /
            Real.exp (1 / (s1.miss : ℝ))
        else (if s1.hit > s1.miss then s.step * Real.exp (1 / (s1.hit : ℝ)) else s.step)) ∧
      s1.number = s.number + 1 ∧ s1.evals = s.evals + 1 ∧ s1.idx = idx1 := by
  simp only [metroStep] at h
  split at h
  · exact absurd h (by simp)
  · rename_i cand idx1 heq
    injection h with h
    subst h
    exact ⟨cand, idx1, heq, rfl, rfl, rfl, rfl, rfl, rfl, rfl⟩

lemma metroStep_step_formula {B : Bounds} {LL : ℝ → ℝ → ℝ → ℝ → ℝ} {LC : ℝ} {rand : ℕ → ℝ}
    {fuel : ℕ} {s s1 : MetroState} (h : metroStep B LL LC rand fuel s = some s1) :
    s1.step = if s1.hit > s1.miss then s.step * Real.exp (1 / (s1.hit : ℝ))
      else if s1.hit < s1.miss then s.step / Real.exp (1 / (s1.miss : ℝ)) else s.step := by
  obtain ⟨cand, idx1, _, _, _, _, hstep, _⟩ := metroStep_spec h
  rw [hstep]
  rcases Nat.lt_trichotomy s1.hit s1.miss with hlt | heq | hgt
  · simp [hlt, Nat.lt_asymm hlt]
  · simp [heq, lt_irrefl]
  · simp [hgt, Nat.lt_asymm hgt]

lemma metroStep_inBounds {B : Bounds} {LL : ℝ → ℝ → ℝ → ℝ → ℝ} {LC : ℝ} {rand : ℕ → ℝ}
    {fuel : ℕ} {s s1 : MetroState} (h : metroStep B LL LC rand fuel s = some s1)
    (hin : inBounds B s.metro) : inBounds B s1.metro := by
  obtain ⟨cand, idx1, heq, hmetro, _⟩ := metroStep_spec h
  rw [hmetro]
  split
  · simpa [inBounds] using genCandidate_inBounds heq
  · exact hin

lemma metroStep_logL {B : Bounds} {LL : ℝ → ℝ → ℝ → ℝ → ℝ} {LC : ℝ} {rand : ℕ → ℝ}
    {fuel : ℕ} {s s1 : MetroState} (h : metroStep B LL LC rand fuel s = some s1) :
    s1.metro.logL = s.metro.logL ∨ s1.metro.logL > LC := by
  obtain ⟨cand, idx1, heq, hmetro, _⟩ := metroStep_spec h
  rw [hmetro]
  split
  · rename_i hacc
    exact Or.inr hacc
  · exact Or.inl rfl

lemma sampleLoop_spec {B : Bounds} {LL : ℝ → ℝ → ℝ → ℝ → ℝ} {LC : ℝ} {rand : ℕ → ℝ}
    {fuel : ℕ} : ∀ {k : ℕ} {s s1 : MetroState},
    sampleLoop B LL LC rand fuel k s = some s1 →
    s1.number = s.number + k ∧ s1.evals = s.evals + k ∧
    (inBounds B s.metro → inBounds B s1.metro) ∧
    (s1.metro.logL = s.metro.logL ∨ s1.metro.logL > LC) := by
  intro k
  induction k with
  | zero =>
    intro s s1 h
    rw [sampleLoop] at h
    injection h with h
    subst h
    exact ⟨rfl, rfl, fun hin => hin, Or.inl rfl⟩
  | succ k ih =>
    intro s s1 h
    rw [sampleLoop] at h
    split at h
    · exact absurd h (by simp)
    · rename_i s2 hstep
      obtain ⟨hn, he, hb, hl⟩ := ih h
      obtain ⟨hn2, he2, _, _, _, hnum, hev, _⟩ :=
        (fun spec => spec) (metroStep_spec hstep)
      refine ⟨by omega, by omega, ?_, ?_⟩
      · intro hin
        exact hb (metroStep_inBounds hstep hin)
      · rcases hl with hl | hl
        · rcases metroStep_logL hstep with h2 | h2
          · exact Or.inl (hl.trans h2)
          · exact Or.inr (hl ▸ h2)
        · exact Or.inr hl

lemma Metropolis_sample_spec {B : Bounds} {LL : ℝ → ℝ → ℝ → ℝ → ℝ} {src : Source}
    {LC : ℝ} {no : ℕ} {rand : ℕ → ℝ} {idx fuel : ℕ} {m : Source} {num i2 : ℕ}
    (h : Metropolis_sample B LL src LC no rand idx fuel = some (m, num, i2)) :
    num = no + 21 ∧ (inBounds B src → inBounds B m) ∧
    (m.logL = src.logL ∨ m.logL > LC) := by
  simp only [Metropolis_sample] at h
  split at h
  · exact absurd h (by simp)
  · rename_i s hloop
    obtain ⟨hn, he, hb, hl⟩ := sampleLoop_spec hloop
    injection h with h
    injection h with h1 h2
    injection h2 with h2 h3
    subst h1
    subst h2
    have hn2 : s.number = no + 1 + 20 := hn
    exact ⟨by omega, hb, hl⟩

/-! ### Survivor selection and argmin -/

lemma pickSurvivor_spec {n smallest : ℕ} {rand : ℕ → ℝ} (hn : 0 < n) :
    ∀ {fuel idx : ℕ} {surv i1 : ℕ},
      pickSurvivor n smallest rand idx fuel = some (surv, i1) →
      surv < n ∧ surv ≠ smallest := by
  intro fuel
  induction fuel with
  | zero => intro idx surv i1 h; simp [pickSurvivor] at h
  | succ fuel ih =>
    intro idx surv i1 h
    rw [pickSurvivor] at h
    split at h
    · rename_i hne
      injection h with h
      injection h with h1 h2
      subst h1
      exact ⟨Nat.mod_lt _ hn, hne⟩
    · exact ih h

lemma pickSurvivor_one {rand : ℕ → ℝ} :
    ∀ {fuel idx : ℕ}, pickSurvivor 1 0 rand idx fuel = none := by
  intro fuel
  induction fuel with
  | zero => intro idx; rfl
  | succ fuel ih =>
    intro idx
    rw [pickSurvivor]
    simp [Nat.mod_one]
    exact ih

lemma argmin_lt_length : ∀ {l : List ℝ}, l ≠ [] → argmin l < l.length := by
  intro l
  induction l with
  | nil => intro h; exact absurd rfl h
  | cons x xs ih =>
    intro _
    cases xs with
    | nil => simp [argmin]
    | cons y ys =>
      rw [argmin]
      split
      · have := ih (by simp)
        simpa using Nat.succ_lt_succ this
      · simp

/-! ### Log-sum-exp facts -/

lemma logaddexp_bot (w : ℝ) : logaddexp ⊥ ((w : ℝ) : EReal) = ((w : ℝ) : EReal) := by
  rw [logaddexp, EReal.exp_bot, zero_add, EReal.log_exp]

lemma lse_nil : lse [] = ⊥ := by
  simp [lse, ENNReal.log_zero]

lemma lse_append (l : List ℝ) (w : ℝ) :
    lse (l ++ [w]) = logaddexp (lse l) ((w : ℝ) : EReal) := by
  rw [lse, logaddexp, lse, List.map_append, List.sum_append, ENNReal.exp_log]
  simp

lemma lse_singleton (w : ℝ) : lse [w] = ((w : ℝ) : EReal) := by
  have := lse_append [] w
  rw [lse_nil] at this
  simpa [logaddexp_bot] using this

/-! ### Destructuring one iteration of the main loop -/

lemma fitIter_spec {B : Bounds} {LL : ℝ → ℝ → ℝ → ℝ → ℝ} {n : ℕ} {rand : ℕ → ℝ}
    {fuel : ℕ} {s s1 : FitState} (h : fitIter B LL n rand fuel s = some s1) :
    ∃ surv idx1 upd num idx2,
      pickSurvivor n (argmin s.LogL) rand s.idx fuel = some (surv, idx1) ∧
      Metropolis_sample B LL
          ((s.active.set (argmin s.LogL)
              { s.active.getD (argmin s.LogL) default with
                  logWt := s.logW + (s.active.getD (argmin s.LogL) default).logL }).getD
            surv default)
          (s.active.getD (argmin s.LogL) default).logL s.nLike rand idx1 fuel
        = some (upd, num, idx2) ∧
      s1.active = (s.active.set (argmin s.LogL)
          { s.active.getD (argmin s.LogL) default with
              logWt := s.logW + (s.active.getD (argmin s.LogL) default).logL }).set
        (argmin s.LogL) upd ∧
      s1.LogL = s.LogL.set (argmin s.LogL) upd.logL ∧
      s1.logZ = logaddexp s.logZ
        (((s.logW + (s.active.getD (argmin s.LogL) default).logL : ℝ) : ℝ) : EReal) ∧
      s1.logW = s.logW - 1 / (n : ℝ) ∧
      s1.posterior = s.posterior ++
        [{ s.active.getD (argmin s.LogL) default with
            logWt := s.logW + (s.active.getD (argmin s.LogL) default).logL }] ∧
      s1.nLike = num := by
  simp only [fitIter] at h
  split at h
  · exact absurd h (by simp)
  · rename_i surv idx1 hpick
    split at h
    · exact absurd h (by simp)
    · rename_i upd num idx2 hmetro
      injection h with h
      subst h
      exact ⟨surv, idx1, upd, num, idx2, hpick, hmetro, rfl, rfl, rfl, rfl, rfl, rfl⟩

/-! ### Invariants of the main loop -/

lemma fitLoop_basic {B : Bounds} {LL : ℝ → ℝ → ℝ → ℝ → ℝ} {n : ℕ} {rand : ℕ → ℝ}
    {fuel : ℕ} : ∀ {k : ℕ} {s s1 : FitState},
    fitLoop B LL n rand fuel k s = some s1 →
    s1.posterior.length = s.posterior.length + k ∧
    s1.logW = s.logW - (k : ℝ) / (n : ℝ) := by
  intro k
  induction k with
  | zero =>
    intro s s1 h
    rw [fitLoop] at h
    injection h with h
    subst h
    constructor
    · rfl
    · simp
  | succ k ih =>
    intro s s1 h
    rw [fitLoop] at h
    split at h
    · exact absurd h (by simp)
    · rename_i s2 hiter
      obtain ⟨surv, idx1, upd, num, idx2, hpick, hmetro, hact, hLogL, hZ2, hW2, hpost2, hnl⟩ :=
        fitIter_spec hiter
      obtain ⟨hlen, hlw⟩ := ih h
      constructor
      · rw [hlen, hpost2]
        simp
        omega
      · rw [hlw, hW2]
        push_cast
        ring
  
lemma fitLoop_lse {B : Bounds} {LL : ℝ → ℝ → ℝ → ℝ → ℝ} {n : ℕ} {rand : ℕ → ℝ}
    {fuel : ℕ} : ∀ {k : ℕ} {s s1 : FitState},
    s.logZ = lse (s.posterior.map (fun p => p.logWt)) →
    fitLoop B LL n rand fuel k s = some s1 →
    s1.logZ = lse (s1.posterior.map (fun p => p.logWt)) := by
  intro k
  induction k with
  | zero =>
    intro s s1 hinv h
    rw [fitLoop] at h
    injection h with h
    subst h
    exact hinv
  | succ k ih =>
    intro s s1 hinv h
    rw [fitLoop] at h
    split at h
    · exact absurd h (by simp)
    · rename_i s2 hiter
      obtain ⟨surv, idx1, upd, num, idx2, hpick, hmetro, hact, hLogL, hZ2, hW2, hpost2, hnl⟩ :=
        fitIter_spec hiter
      refine ih ?_ h
      rw [hZ2, hpost2, List.map_append]
      simp only [List.map]
      rw [lse_append, hinv]

lemma fitLoop_bounds {B : Bounds} {LL : ℝ → ℝ → ℝ → ℝ → ℝ} {n : ℕ} {rand : ℕ → ℝ}
    {fuel : ℕ} (hn : 0 < n) : ∀ {k : ℕ} {s s1 : FitState},
    s.active.length = n → s.LogL.length = n →
    (∀ p ∈ s.active, inBounds B p) → (∀ p ∈ s.posterior, inBounds B p) →
    fitLoop B LL n rand fuel k s = some s1 →
    s1.active.length = n ∧ s1.LogL.length = n ∧
    (∀ p ∈ s1.active, inBounds B p) ∧ (∀ p ∈ s1.posterior, inBounds B p) := by
  intro k
  induction k with
  | zero =>
    intro s s1 ha hl hba hbp h
    rw [fitLoop] at h
    injection h with h
    subst h
    exact ⟨ha, hl, hba, hbp⟩
  | succ k ih =>
    intro s s1 ha hl hba hbp h
    rw [fitLoop] at h
    split at h
    · exact absurd h (by simp)
    · rename_i s2 hiter
      obtain ⟨surv, idx1, upd, num, idx2, hpick, hmetro, hact, hLogL, hZ2, hW2, hpost2, hnl⟩ :=
        fitIter_spec hiter
      have hsm : argmin s.LogL < s.active.length := by
        rw [ha]
        rw [← hl]
        exact argmin_lt_length (List.ne_nil_of_length_pos (hl ▸ hn))
      have hworst : s.active.getD (argmin s.LogL) default ∈ s.active := by
        rw [List.getD_eq_getElem _ _ hsm]
        exact List.getElem_mem hsm
      have hworstB : inBounds B (s.active.getD (argmin s.LogL) default) := hba _ hworst
      have hworst1B : inBounds B
          { s.active.getD (argmin s.LogL) default with
              logWt := s.logW + (s.active.getD (argmin s.LogL) default).logL } := hworstB
      have hact1B : ∀ p ∈ s.active.set (argmin s.LogL)
          { s.active.getD (argmin s.LogL) default with
              logWt := s.logW + (s.active.getD (argmin s.LogL) default).logL },
          inBounds B p := by
        intro p hp
        rcases List.mem_or_eq_of_mem_set hp with hp | hp
        · exact hba _ hp
        · exact hp ▸ hworst1B
      have hsurv : surv < n := (pickSurvivor_spec hn hpick).1
      have hseed : inBounds B
          ((s.active.set (argmin s.LogL)
              { s.active.getD (argmin s.LogL) default with
                  logWt := s.logW + (s.active.getD (argmin s.LogL) default).logL }).getD
            surv default) := by
        have hlen1 : surv < (s.active.set (argmin s.LogL)
            { s.active.getD (argmin s.LogL) default with
                logWt := s.logW + (s.active.getD (argmin s.LogL) default).logL }).length := by
          rw [List.length_set, ha]
          exact hsurv
        apply hact1B
        rw [List.getD_eq_getElem _ _ hlen1]
        exact List.getElem_mem hlen1
      have hupdB : inBounds B upd := (Metropolis_sample_spec hmetro).2.1 hseed
      refine ih ?_ ?_ ?_ ?_ h
      · rw [hact, List.length_set, List.length_set, ha]
      · rw [hLogL, List.length_set, hl]
      · intro p hp
        rw [hact] at hp
        rcases List.mem_or_eq_of_mem_set hp with hp | hp
        · exact hact1B _ hp
        · exact hp ▸ hupdB
      · intro p hp
        rw [hpost2] at hp
        rcases List.mem_append.mp hp with hp | hp
        · exact hbp _ hp
        · rw [List.mem_singleton.mp hp]
          exact hworst1B

lemma fit_spec {B : Bounds} {LL : ℝ → ℝ → ℝ → ℝ → ℝ} {active : List Source}
    {n maxIter : ℕ} {rand : ℕ → ℝ} {fuel : ℕ} {r : FitResult}
    (h : fit B LL active n maxIter rand fuel = some r) :
    ∃ s1, fitLoop B LL n rand fuel (maxIter - 1) (fitInit active n) = some s1 ∧
      r.src = s1.active ∧ r.samples = s1.posterior ∧ r.logZ = s1.logZ ∧
      r.Information = s1.info ∧ r.likelihood_calculations = s1.nLike ∧
      r.iterations = maxIter := by
  simp only [fit] at h
  split at h
  · exact absurd h (by simp)
  · rename_i s1 hloop
    injection h with h
    subst h
    exact ⟨s1, hloop, rfl, rfl, rfl, rfl, rfl, rfl⟩

lemma fit_one_none {B : Bounds} {LL : ℝ → ℝ → ℝ → ℝ → ℝ} {active : List Source}
    {maxIter : ℕ} {rand : ℕ → ℝ} {fuel : ℕ}
    (hlen : active.length = 1) (hmax : 2 ≤ maxIter) :
    fit B LL active 1 maxIter rand fuel = none := by
  obtain ⟨a, rfl⟩ := List.length_eq_one.mp hlen
  have hargmin : argmin ((fitInit [a] 1).LogL) = 0 := by
    simp [fitInit, argmin]
  have hiter : fitIter B LL 1 rand fuel (fitInit [a] 1) = none := by
    simp only [fitIter, hargmin, pickSurvivor_one]
  obtain ⟨k, hk⟩ : ∃ k, maxIter - 1 = k + 1 := ⟨maxIter - 2, by omega⟩
  simp only [fit, hk, fitLoop, hiter]

/-! ### Clustered-sampling dispatch loop -/

lemma clusteredLoop_gt {CS : ℕ → ℕ → Source × ℕ} {LC : ℝ} :
    ∀ {fuel attempt no : ℕ} {s : Source} {n1 : ℕ},
      clusteredLoop CS LC fuel attempt no = some (s, n1) → s.logL > LC := by
  intro fuel
  induction fuel with
  | zero => intro attempt no s n1 h; simp [clusteredLoop] at h
  | succ fuel ih =>
    intro attempt no s n1 h
    simp only [clusteredLoop] at h
    split at h
    · rename_i hgt
      injection h with h
      have h1 : (CS attempt no).1 = s := congrArg Prod.fst h
      exact h1 ▸ hgt
    · exact ih h

/-! ### Equivalence of the two Metropolis_sampler classes -/

lemma nest_genCandidate_eq (B : Bounds) (m : Source) (sX sY sA sR : ℝ) (rand : ℕ → ℝ) :
    ∀ (fuel idx : ℕ),
      Nest.genCandidate B m sX sY sA sR rand idx fuel =
        genCandidate B m sX sY sA sR rand idx fuel := by
  intro fuel
  induction fuel with
  | zero => intro idx; rfl
  | succ fuel ih =>
    intro idx
    rw [Nest.genCandidate, genCandidate, ih]

lemma nest_metroStep_eq (B : Bounds) (LL : ℝ → ℝ → ℝ → ℝ → ℝ) (LC : ℝ) (rand : ℕ → ℝ)
    (fuel : ℕ) (s : MetroState) :
    Nest.metroStep B LL LC rand fuel s = metroStep B LL LC rand fuel s := by
  rw [Nest.metroStep, metroStep, show Nest.stepSizes = stepSizes from rfl,
    nest_genCandidate_eq]

lemma nest_sampleLoop_eq (B : Bounds) (LL : ℝ → ℝ → ℝ → ℝ → ℝ) (LC : ℝ) (rand : ℕ → ℝ)
    (fuel : ℕ) : ∀ (k : ℕ) (s : MetroState),
    Nest.sampleLoop B LL LC rand fuel k s = sampleLoop B LL LC rand fuel k s := by
  intro k
  induction k with
  | zero => intro s; rfl
  | succ k ih =>
    intro s
    rw [Nest.sampleLoop, sampleLoop, nest_metroStep_eq]
    cases metroStep B LL LC rand fuel s with
    | none => rfl
    | some s1 => exact ih s1

lemma nest_Metropolis_sample_eq (B : Bounds) (LL : ℝ → ℝ → ℝ → ℝ → ℝ) (source : Source)
    (LC : ℝ) (no : ℕ) (rand : ℕ → ℝ) (idx fuel : ℕ) :
    Nest.Metropolis_sample B LL source LC no rand idx fuel =
      Metropolis_sample B LL source LC no rand idx fuel := by
  rw [Nest.Metropolis_sample, Metropolis_sample, nest_sampleLoop_eq]


lemma metroStep_eval (s : MetroState) (hX : s.metro.X = 100) (hY : s.metro.Y = 100)
    (hA : s.metro.A = 7) (hR : s.metro.R = 5) (hm : s.miss = 0) :
    metroStep B0 LL0 (-1) rand0 1 s =
      some ⟨⟨100, 100, 7, 5, 0, 0⟩, s.step * Real.exp (1 / ((s.hit + 1 : ℕ) : ℝ)),
            s.hit + 1, 0, s.number + 1, s.evals + 1, s.idx + 4⟩ := by
  have h2 : (2 : ℝ) * (1 / 2) - 1 = 0 := by norm_num
  simp only [metroStep, genCandidate, stepSizes, rand0, B0, LL0, hX, hY, hA, hR, hm, h2,
    mul_zero, add_zero]
  norm_num

lemma sampleLoop_eval : ∀ (k : ℕ) (s : MetroState), s.metro.X = 100 → s.metro.Y = 100 →
    s.metro.A = 7 → s.metro.R = 5 → s.miss = 0 →
    ∃ t, sampleLoop B0 LL0 (-1) rand0 1 k s = some t ∧ t.metro.X = 100 ∧
      t.metro.Y = 100 ∧ t.metro.A = 7 ∧ t.metro.R = 5 ∧ t.miss = 0 ∧
      t.number = s.number + k ∧ t.evals = s.evals + k ∧
      (k = 0 → t = s) ∧ (0 < k → t.metro.logL = 0) := by
  intro k
  induction k with
  | zero =>
    intro s hX hY hA hR hm
    exact ⟨s, rfl, hX, hY, hA, hR, hm, rfl, rfl, fun _ => rfl, fun h => absurd h (by omega)⟩
  | succ k ih =>
    intro s hX hY hA hR hm
    rw [sampleLoop, metroStep_eval s hX hY hA hR hm]
    obtain ⟨t, ht, htX, htY, htA, htR, htm, htn, hte, ht0, htL⟩ :=
      ih ⟨⟨100, 100, 7, 5, 0, 0⟩, s.step * Real.exp (1 / ((s.hit + 1 : ℕ) : ℝ)),
          s.hit + 1, 0, s.number + 1, s.evals + 1, s.idx + 4⟩ rfl rfl rfl rfl rfl
    refine ⟨t, ht, htX, htY, htA, htR, htm, ?_, ?_, ?_, ?_⟩
    · have htn2 : t.number = s.number + 1 + k := htn
      omega
    · have hte2 : t.evals = s.evals + 1 + k := hte
      omega
    · intro h; exact absurd h (by omega)
    · intro _
      rcases Nat.eq_zero_or_pos k with hk | hk
      · subst hk
        rw [ht0 rfl]
      · exact htL hk

lemma Metropolis_sample_eval (seed : Source) (hX : seed.X = 100) (hY : seed.Y = 100)
    (hA : seed.A = 7) (hR : seed.R = 5) (no idx : ℕ) :
    ∃ m i2, Metropolis_sample B0 LL0 seed (-1) no rand0 idx 1 = some (m, no + 21, i2) ∧
      m.X = 100 ∧ m.Y = 100 ∧ m.A = 7 ∧ m.R = 5 ∧ m.logL = 0 := by
  obtain ⟨t, ht, htX, htY, htA, htR, htm, htn, hte, ht0, htL⟩ :=
    sampleLoop_eval 20 ⟨seed, 8, 0, 0, no + 1, 0, idx⟩ hX hY hA hR rfl
  have htn2 : t.number = no + 21 := by
    have h3 : t.number = no + 1 + 20 := htn
    omega
  refine ⟨t.metro, t.idx, ?_, htX, htY, htA, htR, htL (by omega)⟩
  rw [Metropolis_sample, ht]
  show some (t.metro, t.number, t.idx) = some (t.metro, no + 21, t.idx)
  rw [htn2]

lemma fitIter_eval :
    ∃ s1, fitIter B0 LL0 2 rand0 1 (fitInit [src0, src1] 2) = some s1 ∧
      s1.nLike = 23 := by
  have hargmin : argmin ((fitInit [src0, src1] 2).LogL) = 0 := by
    show argmin ([src0, src1].map (fun p => p.logL)) = 0
    simp only [List.map]
    norm_num [argmin, src0, src1]
  have hpick : pickSurvivor 2 0 rand0 ((fitInit [src0, src1] 2).idx) 1 = some (1, 1) := by
    show pickSurvivor 2 0 rand0 0 1 = some (1, 1)
    have hf : ((2 : ℕ) : ℝ) * rand0 0 = 1 := by norm_num [rand0]
    simp only [pickSurvivor, hf, Int.floor_one]
    norm_num
  obtain ⟨m, i2, hM, hmX, hmY, hmA, hmR, hmL⟩ :=
    Metropolis_sample_eval src1 rfl rfl rfl rfl 2 1
  simp only [fitIter, hargmin, hpick]
  have hseed : ((fitInit [src0, src1] 2).active.set 0
      { (fitInit [src0, src1] 2).active.getD 0 default with
          logWt := (fitInit [src0, src1] 2).logW +
            ((fitInit [src0, src1] 2).active.getD 0 default).logL }).getD 1 default
      = src1 := rfl
  have hLC : ((fitInit [src0, src1] 2).active.getD 0 default).logL = -1 := rfl
  have hnl : (fitInit [src0, src1] 2).nLike = 2 := rfl
  rw [hseed, hLC, hnl, hM]
  exact ⟨_, rfl, rfl⟩


lemma fitLoop_one (B : Bounds) (LL : ℝ → ℝ → ℝ → ℝ → ℝ) (n : ℕ) (rand : ℕ → ℝ)
    (fuel : ℕ) (s : FitState) :
    fitLoop B LL n rand fuel 1 s =
      match fitIter B LL n rand fuel s with
      | none => none
      | some s1 => fitLoop B LL n rand fuel 0 s1 := rfl

lemma fitLoop_eval :
    ∃ s1, fitLoop B0 LL0 2 rand0 1 1 (fitInit [src0, src1] 2) = some s1 := by
  obtain ⟨s1, h1, _⟩ := fitIter_eval
  refine ⟨s1, ?_⟩
  rw [fitLoop_one, h1]
  rfl

lemma fit_eval :
    ∃ r, fit B0 LL0 [src0, src1] 2 2 rand0 1 = some r ∧ r.iterations = 2 ∧
      r.samples.length = 1 := by
  obtain ⟨s1, h1⟩ := fitLoop_eval
  have hlen : s1.posterior.length = 1 := by
    have h2 := (fitLoop_basic h1).1
    have h3 : (fitInit [src0, src1] 2).posterior.length = 0 := rfl
    omega
  refine ⟨⟨s1.active, s1.posterior, s1.logZ, s1.info, s1.nLike, 2⟩, ?_, rfl, hlen⟩
  simp only [fit, show (2 : ℕ) - 1 = 1 from rfl, h1]

/-! ### Claim theorems -/

/-- C1, counterexample: with `maxIter = 2` the code executes one main-loop
iteration, returns a posterior trace of length 1 and reports
`iterations = 2`, so the trace does not have `maxIter` entries and the
reported value differs from the number of iterations executed. -/
theorem C1_counterexample :
    (fit B0 LL0 [src0, src1] 2 2 rand0 1).map (fun r => (r.samples.length, r.iterations))
      = some (1, 2) ∧ (1 : ℕ) ≠ 2 := by
  obtain ⟨r, hr, hit, hlen⟩ := fit_eval
  refine ⟨?_, by omega⟩
  rw [hr]
  simp [hlen, hit]

/-- C1 (amended): the loop `for iteration in range(1, maxIter)` executes
exactly `maxIter - 1` main-loop iterations, appends exactly one
posterior-trace entry per iteration (so a successful `fit` returns a
trace of length `maxIter - 1`), and the returned mapping's `iterations`
value is `maxIter`, one more than the number of iterations executed. -/
theorem C1_iteration_count :
    (∀ (B : Bounds) (LL : ℝ → ℝ → ℝ → ℝ → ℝ) (n : ℕ) (rand : ℕ → ℝ) (fuel k : ℕ)
      (s s1 : FitState), fitLoop B LL n rand fuel k s = some s1 →
      s1.posterior.length = s.posterior.length + k) ∧
    (∀ (B : Bounds) (LL : ℝ → ℝ → ℝ → ℝ → ℝ) (active : List Source) (n maxIter : ℕ)
      (rand : ℕ → ℝ) (fuel : ℕ) (r : FitResult),
      fit B LL active n maxIter rand fuel = some r →
      r.samples.length = maxIter - 1 ∧ r.iterations = maxIter) := by
  constructor
  · intro B LL n rand fuel k s s1 h
    exact (fitLoop_basic h).1
  · intro B LL active n maxIter rand fuel r h
    obtain ⟨s1, hloop, hsrc, hsam, hZ, hI, hnl, hit⟩ := fit_spec h
    have hlen := (fitLoop_basic hloop).1
    have h0 : (fitInit active n).posterior.length = 0 := rfl
    exact ⟨by rw [hsam]; omega, hit⟩

/-- C1, witness: the amended statement instantiated on a concrete
two-point run with `maxIter = 2`. -/
theorem C1_witness :
    fit B0 LL0 [src0, src1] 2 2 rand0 1
      = some ((fit B0 LL0 [src0, src1] 2 2 rand0 1).getD dummyFR) ∧
    ((fit B0 LL0 [src0, src1] 2 2 rand0 1).getD dummyFR).samples.length = 2 - 1 ∧
    ((fit B0 LL0 [src0, src1] 2 2 rand0 1).getD dummyFR).iterations = 2 := by
  obtain ⟨r, hr, hit, hlen⟩ := fit_eval
  have hg : (fit B0 LL0 [src0, src1] 2 2 rand0 1).getD dummyFR = r := by
    rw [hr]
    rfl
  have h2 := C1_iteration_count.2 B0 LL0 [src0, src1] 2 2 rand0 1 r hr
  rw [hg]
  exact ⟨hr, h2.1, h2.2⟩

/-- C2, counterexample: a seed with `logL = 3` and constraint `-1` under
a constant-zero likelihood: every step accepts a candidate with
`logL = 0 > -1`, so the returned point's `logL = 0` is strictly below
the seed's `logL = 3`. -/
theorem C2_counterexample :
    (Metropolis_sample B0 LL0 src1 (-1) 2 rand0 1 1).map (fun r => r.1.logL) = some 0 ∧
    src1.logL = 3 ∧ ¬ ((3 : ℝ) ≤ 0) := by
  obtain ⟨m, i2, hM, hmX, hmY, hmA, hmR, hmL⟩ :=
    Metropolis_sample_eval src1 rfl rfl rfl rfl 2 1
  refine ⟨?_, rfl, by norm_num⟩
  rw [hM]
  simp [hmL]

/-- C2 (amended): the point returned by `Metropolis_sampler.sample`
either has exactly the seed's `logL` (when no candidate was accepted) or
has `logL` strictly above the constraint; consequently the returned
`logL` is ≥ the seed's `logL` whenever the seed's `logL` is ≤ the
constraint — but it can drop below the seed's `logL` when the seed
starts above the constraint. -/
theorem C2_chain_monotonicity :
    ∀ (B : Bounds) (LL : ℝ → ℝ → ℝ → ℝ → ℝ) (source : Source) (LC : ℝ) (no : ℕ)
      (rand : ℕ → ℝ) (idx fuel : ℕ) (m : Source) (num i2 : ℕ),
      Metropolis_sample B LL source LC no rand idx fuel = some (m, num, i2) →
      (m.logL = source.logL ∨ m.logL > LC) ∧
      (source.logL ≤ LC → source.logL ≤ m.logL) := by
  intro B LL source LC no rand idx fuel m num i2 h
  have h3 := (Metropolis_sample_spec h).2.2
  refine ⟨h3, fun hle => ?_⟩
  rcases h3 with h3 | h3
  · exact le_of_eq h3.symm
  · exact le_of_lt (lt_of_le_of_lt hle h3)

/-- C2, witness: the amended statement instantiated on the concrete run. -/
theorem C2_witness :
    Metropolis_sample B0 LL0 src1 (-1) 2 rand0 1 1
      = some ((Metropolis_sample B0 LL0 src1 (-1) 2 rand0 1 1).getD dummyMS) ∧
    ((((Metropolis_sample B0 LL0 src1 (-1) 2 rand0 1 1).getD dummyMS).1.logL = src1.logL ∨
        ((Metropolis_sample B0 LL0 src1 (-1) 2 rand0 1 1).getD dummyMS).1.logL > -1) ∧
      (src1.logL ≤ -1 →
        src1.logL ≤ ((Metropolis_sample B0 LL0 src1 (-1) 2 rand0 1 1).getD dummyMS).1.logL)) := by
  obtain ⟨m, i2, hM, hmX, hmY, hmA, hmR, hmL⟩ :=
    Metropolis_sample_eval src1 rfl rfl rfl rfl 2 1
  have hg : (Metropolis_sample B0 LL0 src1 (-1) 2 rand0 1 1).getD dummyMS = (m, 2 + 21, i2) := by
    rw [hM]
    rfl
  constructor
  · rw [hM]
    rfl
  · rw [hg]
    exact C2_chain_monotonicity B0 LL0 src1 (-1) 2 rand0 1 1 m (2 + 21) i2 hM

/-- C3, counterexample: a call entering with counter 2 returns counter
23 = 2 + 21, not 2 + 20, because the counter is incremented once on
entry in addition to once per likelihood evaluation. -/
theorem C3_counterexample :
    (Metropolis_sample B0 LL0 src1 (-1) 2 rand0 1 1).map (fun r => r.2.1) = some 23 ∧
    (23 : ℕ) ≠ 2 + 20 := by
  obtain ⟨m, i2, hM, hmX, hmY, hmA, hmR, hmL⟩ :=
    Metropolis_sample_eval src1 rfl rfl rfl rfl 2 1
  refine ⟨?_, by omega⟩
  rw [hM]
  rfl

/-- C3 (amended): the chain runs exactly 20 steps, the likelihood
function is evaluated exactly once per step (the ghost counter `evals`
grows by exactly the number of steps), and the returned counter equals
`c + 21`: one increment on entry to `sample()` plus one per likelihood
evaluation. -/
theorem C3_call_counter :
    (∀ (B : Bounds) (LL : ℝ → ℝ → ℝ → ℝ → ℝ) (LC : ℝ) (rand : ℕ → ℝ) (fuel k : ℕ)
      (s s1 : MetroState), sampleLoop B LL LC rand fuel k s = some s1 →
      s1.evals = s.evals + k ∧ s1.number = s.number + k) ∧
    (∀ (B : Bounds) (LL : ℝ → ℝ → ℝ → ℝ → ℝ) (source : Source) (LC : ℝ) (no : ℕ)
      (rand : ℕ → ℝ) (idx fuel : ℕ) (m : Source) (num i2 : ℕ),
      Metropolis_sample B LL source LC no rand idx fuel = some (m, num, i2) →
      num = no + 21) := by
  constructor
  · intro B LL LC rand fuel k s s1 h
    obtain ⟨hn, he, _, _⟩ := sampleLoop_spec h
    exact ⟨he, hn⟩
  · intro B LL source LC no rand idx fuel m num i2 h
    exact (Metropolis_sample_spec h).1

/-- C3, witness: the amended statement instantiated on the concrete run. -/
theorem C3_witness :
    sampleLoop B0 LL0 (-1) rand0 1 20 mstate0
      = some ((sampleLoop B0 LL0 (-1) rand0 1 20 mstate0).getD dummyMSt) ∧
    ((sampleLoop B0 LL0 (-1) rand0 1 20 mstate0).getD dummyMSt).evals = mstate0.evals + 20 ∧
    ((sampleLoop B0 LL0 (-1) rand0 1 20 mstate0).getD dummyMSt).number = mstate0.number + 20 ∧
    Metropolis_sample B0 LL0 src1 (-1) 2 rand0 1 1
      = some ((Metropolis_sample B0 LL0 src1 (-1) 2 rand0 1 1).getD dummyMS) ∧
    ((Metropolis_sample B0 LL0 src1 (-1) 2 rand0 1 1).getD dummyMS).2.1 = 2 + 21 := by
  obtain ⟨t, ht, htX, htY, htA, htR, htm, htn, hte, ht0, htL⟩ :=
    sampleLoop_eval 20 mstate0 rfl rfl rfl rfl rfl
  obtain ⟨m, i2, hM, hmX, hmY, hmA, hmR, hmL⟩ :=
    Metropolis_sample_eval src1 rfl rfl rfl rfl 2 1
  have hg1 : (sampleLoop B0 LL0 (-1) rand0 1 20 mstate0).getD dummyMSt = t := by
    rw [ht]
    rfl
  have hg2 : (Metropolis_sample B0 LL0 src1 (-1) 2 rand0 1 1).getD dummyMS = (m, 2 + 21, i2) := by
    rw [hM]
    rfl
  have h1 := C3_call_counter.1 B0 LL0 (-1) rand0 1 20 mstate0 t ht
  have h2 := C3_call_counter.2 B0 LL0 src1 (-1) 2 rand0 1 1 m (2 + 21) i2 hM
  rw [hg1, hg2]
  exact ⟨ht, h1.1, h1.2, hM, rfl⟩

/-- C4: the evidence accumulator is updated by log-space `logaddexp`
(never linear-space), the sentinel initial value is an identity element
for the accumulation (so after the first iteration the accumulator
equals the first discarded point's `logWt`), and after `k` iterations it
equals the log-sum-exp of the `k` assigned `logWt` values (the `logWt`
fields of the posterior trace). -/
theorem C4_evidence_accumulation :
    (∀ w : ℝ, logaddexp ⊥ ((w : ℝ) : EReal) = ((w : ℝ) : EReal)) ∧
    (∀ w : ℝ, lse [w] = ((w : ℝ) : EReal)) ∧
    (∀ (B : Bounds) (LL : ℝ → ℝ → ℝ → ℝ → ℝ) (active : List Source) (n : ℕ)
      (rand : ℕ → ℝ) (fuel k : ℕ) (s1 : FitState),
      fitLoop B LL n rand fuel k (fitInit active n) = some s1 →
      s1.logZ = lse (s1.posterior.map (fun p => p.logWt))) := by
  refine ⟨logaddexp_bot, lse_singleton, ?_⟩
  intro B LL active n rand fuel k s1 h
  refine fitLoop_lse ?_ h
  show (⊥ : EReal) = lse (([] : List Source).map (fun p => p.logWt))
  rw [List.map_nil, lse_nil]

/-- C4, witness: the accumulation statement instantiated on a concrete
one-iteration run. -/
theorem C4_witness :
    fitLoop B0 LL0 2 rand0 1 1 (fitInit [src0, src1] 2)
      = some ((fitLoop B0 LL0 2 rand0 1 1 (fitInit [src0, src1] 2)).getD dummyFS) ∧
    ((fitLoop B0 LL0 2 rand0 1 1 (fitInit [src0, src1] 2)).getD dummyFS).logZ
      = lse (((fitLoop B0 LL0 2 rand0 1 1 (fitInit [src0, src1] 2)).getD
          dummyFS).posterior.map (fun p => p.logWt)) := by
  obtain ⟨s1, h1⟩ := fitLoop_eval
  have hg : (fitLoop B0 LL0 2 rand0 1 1 (fitInit [src0, src1] 2)).getD dummyFS = s1 := by
    rw [h1]
    rfl
  rw [hg]
  exact ⟨h1, C4_evidence_accumulation.2.2 B0 LL0 [src0, src1] 2 rand0 1 1 s1 h1⟩

/-- C5: the prior-mass width is initialised to `log(1 - exp(-1/N))` and
shrinks by exactly `1/N` per main-loop iteration: after `k` completed
iterations it equals `log(1 - exp(-1/N)) - k/N`, for every likelihood
function and every random stream. -/
theorem C5_prior_mass_width :
    ∀ (B : Bounds) (LL : ℝ → ℝ → ℝ → ℝ → ℝ) (active : List Source) (n : ℕ)
      (rand : ℕ → ℝ) (fuel k : ℕ) (s1 : FitState),
      fitLoop B LL n rand fuel k (fitInit active n) = some s1 →
      s1.logW = Real.log (1 - Real.exp (-1 / (n : ℝ))) - (k : ℝ) / (n : ℝ) := by
  intro B LL active n rand fuel k s1 h
  have h2 := (fitLoop_basic h).2
  rw [h2]
  rfl

/-- C5, witness: the width formula instantiated on a concrete
one-iteration run with two active points. -/
theorem C5_witness :
    fitLoop B0 LL0 2 rand0 1 1 (fitInit [src0, src1] 2)
      = some ((fitLoop B0 LL0 2 rand0 1 1 (fitInit [src0, src1] 2)).getD dummyFS) ∧
    ((fitLoop B0 LL0 2 rand0 1 1 (fitInit [src0, src1] 2)).getD dummyFS).logW
      = Real.log (1 - Real.exp (-1 / ((2 : ℕ) : ℝ))) - ((1 : ℕ) : ℝ) / ((2 : ℕ) : ℝ) := by
  obtain ⟨s1, h1⟩ := fitLoop_eval
  have hg : (fitLoop B0 LL0 2 rand0 1 1 (fitInit [src0, src1] 2)).getD dummyFS = s1 := by
    rw [h1]
    rfl
  rw [hg]
  exact ⟨h1, C5_prior_mass_width B0 LL0 [src0, src1] 2 rand0 1 1 s1 h1⟩

/-- C6: whenever the clustered-sampling dispatch loop returns a point,
that point's `logL` is strictly greater than the likelihood constraint;
the loop re-invokes the strategy, threading the updated call count,
until this holds. -/
theorem C6_clustered_retry :
    ∀ (CS : ℕ → ℕ → Source × ℕ) (LC : ℝ) (no fuel : ℕ) (s : Source) (n1 : ℕ),
      clustered_sampling CS LC no fuel = some (s, n1) → s.logL > LC :=
  fun CS LC no fuel s n1 h => clusteredLoop_gt h

/-- C6, witness: a concrete strategy whose first attempt fails the
constraint and whose second attempt (invoked with the updated call
count 13 = 10 + 3) satisfies it. -/
theorem C6_witness :
    clustered_sampling CS0 0 10 2 = some (cs0res, 16) ∧ cs0res.logL > 0 := by
  have h : clustered_sampling CS0 0 10 2 = some (cs0res, 16) := by
    norm_num [clustered_sampling, clusteredLoop, CS0, cs0res]
  exact ⟨h, C6_clustered_retry CS0 0 10 2 cs0res 16 h⟩

/-- C7: after the accept/reject decision updates the cumulative hit and
miss counts, the scalar step is multiplied by `exp(1/hits)` when
hits > misses, divided by `exp(1/misses)` when misses > hits, and left
unchanged when they are equal; the per-dimension step sizes are
recomputed from the scalar step as `stepX = step` and
`stepDim = (step / x_upper) * (dimUpper - dimLower)`. -/
theorem C7_step_adaptation :
    ∀ (B : Bounds) (LL : ℝ → ℝ → ℝ → ℝ → ℝ) (LC : ℝ) (rand : ℕ → ℝ) (fuel : ℕ)
      (s s1 : MetroState), metroStep B LL LC rand fuel s = some s1 →
      (s1.step = if s1.hit > s1.miss then s.step * Real.exp (1 / (s1.hit : ℝ))
        else if s1.hit < s1.miss then s.step / Real.exp (1 / (s1.miss : ℝ)) else s.step) ∧
      (∀ st : ℝ, stepSizes B st =
        (st, (st / B.x_u) * (B.y_u - B.y_l),
         ((st / B.x_u) * (B.a_u - B.a_l), (st / B.x_u) * (B.r_u - B.r_l)))) :=
  fun B LL LC rand fuel s s1 h => ⟨metroStep_step_formula h, fun st => rfl⟩

/-- C7, witness: one concrete accepted step, with hit count 1 and miss
count 0, multiplies the scalar step 8 by `exp(1/1)`. -/
theorem C7_witness :
    metroStep B0 LL0 (-1) rand0 1 mstate0 = some mres0 ∧
    (mres0.step = if mres0.hit > mres0.miss then mstate0.step * Real.exp (1 / (mres0.hit : ℝ))
      else if mres0.hit < mres0.miss then mstate0.step / Real.exp (1 / (mres0.miss : ℝ))
      else mstate0.step) := by
  have h : metroStep B0 LL0 (-1) rand0 1 mstate0 = some mres0 :=
    metroStep_eval mstate0 rfl rfl rfl rfl rfl
  exact ⟨h, (C7_step_adaptation B0 LL0 (-1) rand0 1 mstate0 mres0 h).1⟩

/-- C8: if every point of the starting ensemble is within the prior
bounds (and the trace so far is), then after any number of main-loop
iterations every point of the ensemble and every point of the posterior
trace is within the prior bounds: Metropolis candidate generation
regenerates until in-bounds, and only in-bounds candidates can replace
the chain state. -/
theorem C8_in_bounds_invariant :
    ∀ (B : Bounds) (LL : ℝ → ℝ → ℝ → ℝ → ℝ) (n : ℕ) (rand : ℕ → ℝ) (fuel k : ℕ)
      (s s1 : FitState), 0 < n → s.active.length = n → s.LogL.length = n →
      (∀ p ∈ s.active, inBounds B p) → (∀ p ∈ s.posterior, inBounds B p) →
      fitLoop B LL n rand fuel k s = some s1 →
      (∀ p ∈ s1.active, inBounds B p) ∧ (∀ p ∈ s1.posterior, inBounds B p) := by
  intro B LL n rand fuel k s s1 hn ha hl hba hbp h
  have h2 := fitLoop_bounds hn ha hl hba hbp h
  exact ⟨h2.2.2.1, h2.2.2.2⟩

/-- C8, witness: the invariant instantiated on a concrete one-iteration
run whose two starting points lie inside the bounds. -/
theorem C8_witness :
    (0 < 2 ∧ (fitInit [src0, src1] 2).active.length = 2 ∧
      (fitInit [src0, src1] 2).LogL.length = 2 ∧
      (∀ p ∈ (fitInit [src0, src1] 2).active, inBounds B0 p) ∧
      (∀ p ∈ (fitInit [src0, src1] 2).posterior, inBounds B0 p)) ∧
    fitLoop B0 LL0 2 rand0 1 1 (fitInit [src0, src1] 2)
      = some ((fitLoop B0 LL0 2 rand0 1 1 (fitInit [src0, src1] 2)).getD dummyFS) ∧
    (∀ p ∈ ((fitLoop B0 LL0 2 rand0 1 1 (fitInit [src0, src1] 2)).getD dummyFS).active,
      inBounds B0 p) ∧
    (∀ p ∈ ((fitLoop B0 LL0 2 rand0 1 1 (fitInit [src0, src1] 2)).getD dummyFS).posterior,
      inBounds B0 p) := by
  obtain ⟨s1, h1⟩ := fitLoop_eval
  have hg : (fitLoop B0 LL0 2 rand0 1 1 (fitInit [src0, src1] 2)).getD dummyFS = s1 := by
    rw [h1]
    rfl
  have hba : ∀ p ∈ (fitInit [src0, src1] 2).active, inBounds B0 p := by
    intro p hp
    have hp2 : p ∈ [src0, src1] := hp
    rcases List.mem_cons.mp hp2 with h | h
    · subst h
      norm_num [inBounds, src0, B0]
    · rw [List.mem_singleton.mp h]
      norm_num [inBounds, src1, B0]
  have hbp : ∀ p ∈ (fitInit [src0, src1] 2).posterior, inBounds B0 p := by
    intro p hp
    exact absurd hp (List.not_mem_nil p)
  have hc := C8_in_bounds_invariant B0 LL0 2 rand0 1 1 (fitInit [src0, src1] 2) s1
    (by norm_num) rfl rfl hba hbp h1
  rw [hg]
  exact ⟨⟨by norm_num, rfl, rfl, hba, hbp⟩, h1, hc.1, hc.2⟩

/-- C9: the `Metropolis_sampler` class of metropolis.py and the
duplicate class at the bottom of nest.py (the one dispatched by `fit`)
are behaviourally equivalent: on the same seed, constraint, counter,
bounds, likelihood and random stream, both `sample` methods return the
same result. -/
theorem C9_sampler_equivalence :
    ∀ (B : Bounds) (LL : ℝ → ℝ → ℝ → ℝ → ℝ) (source : Source) (LC : ℝ) (no : ℕ)
      (rand : ℕ → ℝ) (idx fuel : ℕ),
      Nest.Metropolis_sample B LL source LC no rand idx fuel =
        Metropolis_sample B LL source LC no rand idx fuel :=
  nest_Metropolis_sample_eq

/-- C10: for a single active point and at least one executed iteration,
the survivor-selection rejection loop can never succeed (the only
drawable index equals the worst index), so `fit` never returns; for an
ensemble of at least two points there is, at every loop entry, a random
draw on which the selection loop exits immediately. -/
theorem C10_termination :
    (∀ (B : Bounds) (LL : ℝ → ℝ → ℝ → ℝ → ℝ) (active : List Source) (maxIter : ℕ)
      (rand : ℕ → ℝ) (fuel : ℕ), active.length = 1 → 2 ≤ maxIter →
      fit B LL active 1 maxIter rand fuel = none) ∧
    (∀ n smallest : ℕ, 2 ≤ n → smallest < n →
      ∃ rand : ℕ → ℝ, ∀ idx : ℕ, (pickSurvivor n smallest rand idx 1).isSome = true) := by
  constructor
  · intro B LL active maxIter rand fuel hlen hmax
    exact fit_one_none hlen hmax
  · intro n smallest hn hs
    refine ⟨fun _ => (((if smallest = 0 then 1 else 0 : ℕ) : ℝ) / (n : ℝ)), ?_⟩
    intro idx
    have htlt : (if smallest = 0 then 1 else 0 : ℕ) < n := by
      split
      · omega
      · omega
    have htne : (if smallest = 0 then 1 else 0 : ℕ) ≠ smallest := by
      split
      · rename_i h0
        omega
      · rename_i h0
        omega
    have hnne : (n : ℝ) ≠ 0 := Nat.cast_ne_zero.mpr (by omega)
    have hmul : (n : ℝ) * (((if smallest = 0 then 1 else 0 : ℕ) : ℝ) / (n : ℝ))
        = ((if smallest = 0 then 1 else 0 : ℕ) : ℝ) := by
      field_simp
    have hfl : (Int.toNat ⌊(n : ℝ) * (((if smallest = 0 then 1 else 0 : ℕ) : ℝ) / (n : ℝ))⌋) % n
        = (if smallest = 0 then 1 else 0 : ℕ) := by
      rw [hmul, Int.floor_natCast, Int.toNat_natCast, Nat.mod_eq_of_lt htlt]
    simp only [pickSurvivor, hfl]
    simp [htne]

/-- C10, witness: both parts instantiated — a one-point run with two
requested iterations returns nothing, and for a two-point ensemble with
worst index 0 some draw exits the selection loop at once. -/
theorem C10_witness :
    ([src0].length = 1 ∧ 2 ≤ 2 ∧ fit B0 LL0 [src0] 1 2 rand0 1 = none) ∧
    (2 ≤ 2 ∧ 0 < 2 ∧
      ∃ rand : ℕ → ℝ, ∀ idx : ℕ, (pickSurvivor 2 0 rand idx 1).isSome = true) := by
  refine ⟨⟨rfl, le_refl 2, ?_⟩, le_refl 2, by norm_num, ?_⟩
  · exact C10_termination.1 B0 LL0 [src0] 2 rand0 1 rfl (le_refl 2)
  · exact C10_termination.2 2 0 (le_refl 2) (by norm_num)

end BayesDetect
